import Mathlib

/-!
Verification of the HwpMate conversion core: a shallow embedding of the
HWP-to-PDF batch converter (`hwptopdf-hwpx_v4.py` and the unnamed Tk
variant).  External COM calls are modelled by explicit outcome oracles
(`none` = the call returned normally, `some msg` = it raised `msg`), and
every Python function relevant to the claims is translated branch for
branch into an executable Lean definition.
-/

namespace HwpMate

/-- Supported input extensions, from `SUPPORTED_EXTENSIONS = ('.hwp', '.hwpx')`. -/
def SUPPORTED_EXTENSIONS : List String := [".hwp", ".hwpx"]

/-- Prioritized connection identities, from `HWP_PROGIDS` (priority order). -/
def HWP_PROGIDS : List String :=
  ["HWPControl.HwpCtrl.1", "HwpObject.HwpObject", "HWPFrame.HwpObject"]

/-- Outcome of one external COM call: `none` means the call returned
normally, `some msg` means it raised an exception with message `msg`. -/
abbrev CallOutcome := Option String

/-- Converter object state: `hwpLive` models `self.hwp is not None`,
the other two fields mirror `self.progid_used` and `self.is_initialized`. -/
structure ConverterState where
  hwpLive : Bool
  progidUsed : Option String
  isInitialized : Bool
deriving DecidableEq, Repr

/-- State of a freshly constructed `HWPConverter`. -/
def ConverterState.fresh : ConverterState := ⟨false, none, false⟩

/-- Behavior of one ProgID attempt inside `HWPConverter.initialize`:
the outcome of `win32com.client.Dispatch(progid)` and of
`SetMessageBoxMode` (a `RegisterModule` failure is swallowed by the code
and therefore needs no modelling). -/
structure ProgidBehavior where
  dispatch : CallOutcome
  setMsgBoxMode : CallOutcome
deriving DecidableEq, Repr

/-- Header of the exception message raised when every ProgID fails. -/
def initFailHeader : String := "한글 COM 객체 생성 실패\n\n시도한 ProgID:\n"

/-- Loop body of `HWPConverter.initialize` over the remaining ProgIDs,
accumulating the per-identity diagnostics (most recent first, as the
Python list is joined after being built head-to-tail we keep them in
reverse and restore the order on failure). -/
def initGo (env : String → ProgidBehavior) : List String → List String → Except String String
  | [], errs =>
    .error (initFailHeader ++ String.intercalate "\n" errs.reverse)
  | p :: rest, errs =>
    match (env p).dispatch with
    | some e => initGo env rest ((p ++ ": " ++ e) :: errs)
    | none =>
      match (env p).setMsgBoxMode with
      | some e => initGo env rest ((p ++ ": " ++ e) :: errs)
      | none => .ok p

/-- Embedding of `HWPConverter.initialize`: already-initialized objects
return immediately; otherwise the ProgID list is walked in order and the
first identity whose `Dispatch` and `SetMessageBoxMode` both succeed is
recorded in `progid_used`; on total failure the raised message carries
every attempted identity's diagnostic.  (On the failure path the Python
object may retain a dangling `self.hwp` from a partially successful
attempt, but `is_initialized` stays false, which is all later code
inspects, so the error branch carries no state.) -/
def initializeHwp (st : ConverterState) (env : String → ProgidBehavior) :
    Except String ConverterState :=
  if st.isInitialized then .ok st
  else
    match initGo env HWP_PROGIDS [] with
    | .ok p => .ok ⟨true, some p, true⟩
    | .error e => .error e

/-- Whether one ProgID attempt succeeds (both calls return normally). -/
def attemptOk (env : String → ProgidBehavior) (p : String) : Prop :=
  (env p).dispatch = none ∧ (env p).setMsgBoxMode = none

instance (env : String → ProgidBehavior) (p : String) : Decidable (attemptOk env p) := by
  unfold attemptOk; infer_instance

/-- Diagnostic recorded for a failing ProgID attempt: the `Dispatch`
error if any, otherwise the `SetMessageBoxMode` error. -/
def attemptErr (env : String → ProgidBehavior) (p : String) : Option String :=
  match (env p).dispatch with
  | some e => some e
  | none =>
    match (env p).setMsgBoxMode with
    | some e => some e
    | none => none

/-- The diagnostic text of a failing attempt (empty for a succeeding one). -/
def attemptMsg (env : String → ProgidBehavior) (p : String) : String :=
  (attemptErr env p).getD ""

/-- Behavior of the engine for one `convert_file` run: outcomes of
`Open`, the 2-parameter `SaveAs`, the 3-parameter `SaveAs`, and
`Clear(option=1)`. -/
structure EngineBehavior where
  openCall : CallOutcome
  saveAs2 : CallOutcome
  saveAs3 : CallOutcome
  clearCall : CallOutcome
deriving DecidableEq, Repr

/-- Engine operations `convert_file` can issue, recorded in call order. -/
inductive EngineOp
  | openDoc
  | save2
  | save3
  | clearDoc
deriving DecidableEq, Repr

/-- Result of `HWPConverter.convert_file`: the returned
`(success, errorMessage)` pair, the trace of engine operations attempted,
and the converter state afterwards (the method never mutates it). -/
structure ConvertResult where
  ok : Bool
  err : Option String
  ops : List EngineOp
  state : ConverterState
deriving DecidableEq, Repr

/-- Embedding of `HWPConverter.convert_file`, branch for branch:
an uninitialized converter returns `(False, …)` at once; otherwise `Open`
runs (a failure lands in the outer handler, which best-effort closes);
then `SaveAs` with 2 parameters, falling back to 3 parameters; on both
save variants failing the document is closed best-effort and the combined
diagnostic returned; after a successful save the close
`self.hwp.Clear(option=1)` is NOT protected, so a raising close is caught
by the outer handler (which closes again, swallowed) and the call returns
failure with the close's message. -/
def convertFile (st : ConverterState) (e : EngineBehavior) : ConvertResult :=
  if st.isInitialized = false then
    ⟨false, some "한글 객체가 초기화되지 않았습니다", [], st⟩
  else
    match e.openCall with
    | some msg => ⟨false, some msg, [.openDoc, .clearDoc], st⟩
    | none =>
      match e.saveAs2 with
      | none =>
        match e.clearCall with
        | none => ⟨true, none, [.openDoc, .save2, .clearDoc], st⟩
        | some cmsg => ⟨false, some cmsg, [.openDoc, .save2, .clearDoc, .clearDoc], st⟩
      | some m1 =>
        match e.saveAs3 with
        | none =>
          match e.clearCall with
          | none => ⟨true, none, [.openDoc, .save2, .save3, .clearDoc], st⟩
          | some cmsg =>
            ⟨false, some cmsg, [.openDoc, .save2, .save3, .clearDoc, .clearDoc], st⟩
        | some m2 =>
          ⟨false, some ("2-param: " ++ m1 ++ ", 3-param: " ++ m2),
            [.openDoc, .save2, .save3, .clearDoc], st⟩

/-- Behavior of the three steps of `HWPConverter.cleanup`:
`Clear(3)`, `Quit()`, and `pythoncom.CoUninitialize()`. -/
structure CleanupBehavior where
  clearAll : CallOutcome
  quitCall : CallOutcome
  coUninit : CallOutcome
deriving DecidableEq, Repr

/-- Log entries contributed by one best-effort step. -/
def logOf (o : CallOutcome) : List String :=
  match o with
  | none => []
  | some e => [e]

/-- Embedding of `HWPConverter.cleanup`: when a live, initialized handle
exists, `Clear(3)` and `Quit()` each run inside their own
`try/except pass`, the handle fields are reset, and `CoUninitialize`
(also guarded) runs last; otherwise only `CoUninitialize` runs.  The
function is total: a failing step only contributes a log entry and never
prevents the following steps. -/
def cleanupRun (st : ConverterState) (b : CleanupBehavior) :
    ConverterState × List String :=
  if st.hwpLive && st.isInitialized then
    (⟨false, st.progidUsed, false⟩,
      logOf b.clearAll ++ logOf b.quitCall ++ logOf b.coUninit)
  else
    (st, logOf b.coUninit)

/-- An output path split as directory / stem / suffix, mirroring how
`_adjust_output_paths` decomposes `task.output_file` via `pathlib`'s
`.parent`, `.stem` and `.suffix`. -/
structure OutPath where
  parent : String
  stem : String
  ext : String
deriving DecidableEq, Repr

/-- The `while True` search of `_adjust_output_paths`, with explicit fuel:
`fs` is the set of paths existing on disk at planning time, `counter`
starts at 1, and each round tries the candidate built from
`stem ++ " (counter)" ++ ext` under the same directory. -/
def adjustLoop (fs : List OutPath) (parent stem ext : String) :
    Nat → Nat → Option OutPath
  | 0, _ => none
  | fuel + 1, counter =>
    let newPath : OutPath := ⟨parent, stem ++ " (" ++ toString counter ++ ")", ext⟩
    if newPath ∈ fs then adjustLoop fs parent stem ext fuel (counter + 1)
    else some newPath

/-- Adjustment of one task's output path by `_adjust_output_paths`: the
path is renamed only when it exists on disk, and the renaming loop again
consults only the on-disk set `fs`.  Fuel `fs.length + 1` suffices because
the candidates for distinct counters are distinct paths, so at most
`fs.length` rounds can hit `fs`. -/
def adjustOne (fs : List OutPath) (p : OutPath) : OutPath :=
  if p ∈ fs then (adjustLoop fs p.parent p.stem p.ext (fs.length + 1) 1).getD p
  else p

/-- Embedding of `MainWindow._adjust_output_paths` (identical in
`HWPConverterGUI._adjust_output_paths`) over the whole task list: every
task is adjusted independently against the same on-disk set; no record is
kept of paths claimed by earlier tasks of the batch. -/
def adjustOutputPaths (fs : List OutPath) (tasks : List OutPath) : List OutPath :=
  tasks.map (adjustOne fs)

/-- The drop-time filesystem view seen by `nativeEventFilter`: which
dropped strings denote directories, and what `Path(f).rglob("*" + ext)`
returns for them, in traversal order. -/
structure DropEnv where
  isDir : String → Bool
  rglobHits : String → String → List String

/-- ASCII lowercasing of one character, what `str.lower()` does on the
ASCII range relevant to the compared extensions. -/
def lowerChar (c : Char) : Char :=
  if 'A' ≤ c ∧ c ≤ 'Z' then Char.ofNat (c.toNat + 32) else c

/-- Lowercasing of a path string, character by character. -/
def lowerStr (s : String) : String := ⟨s.data.map lowerChar⟩

/-- Suffix test on the underlying character lists. -/
def strEndsWith (s t : String) : Bool := t.data.isSuffixOf s.data

/-- The test `f.lower().endswith(SUPPORTED_EXTENSIONS)`. -/
def endsWithSupported (f : String) : Bool :=
  SUPPORTED_EXTENSIONS.any (fun ext => strEndsWith (lowerStr f) ext)

/-- Embedding of the payload-filter section of
`NativeDropFilter.nativeEventFilter`: files carrying a supported
extension are kept, each dropped directory contributes its matching
descendants (per extension, in `SUPPORTED_EXTENSIONS` order) instead of
itself, and everything else is discarded.  No deduplication happens at
this stage. -/
def validFilesOf (env : DropEnv) (dropped : List String) : List String :=
  dropped.foldl
    (fun acc f =>
      if endsWithSupported f then acc ++ [f]
      else if env.isDir f then
        acc ++ SUPPORTED_EXTENSIONS.flatMap (fun ext => env.rglobHits f ext)
      else acc)
    []

/-- Embedding of `MainWindow._add_files`: `fileList` is `self.file_list`
and `fileSet` is `self._file_set` (kept as a duplicate-free list).  The
`new_files` filter is evaluated against the set as it was BEFORE the
call, after which every element of `new_files` is appended to the list —
so a path occurring twice inside one `files` argument is appended twice. -/
def addFiles (fileList fileSet files : List String) :
    List String × List String :=
  let newFiles := files.filter (fun f => !(fileSet.contains f))
  (fileList ++ newFiles,
    newFiles.foldl (fun s f => if s.contains f then s else s ++ [f]) fileSet)

/-- Truthiness of a Python `pathlib.Path` object: `Path` defines neither
a `__bool__` nor a `__len__` method, so `bool(Path(x))` is `True` for
every `x`, including `Path("")`. -/
def pathTruthy (_s : String) : Bool := true

/-- One input file as `_collect_tasks` sees it: its directory, its stem,
and (for directory mode) the directory part of its position relative to
the scanned root. -/
structure FileEntry where
  parent : String
  stem : String
  relParent : String
deriving DecidableEq, Repr

/-- The GUI state read by `MainWindow._collect_tasks`. -/
structure CollectInput where
  isFolderMode : Bool
  folderText : String
  folderExists : Bool
  scanResults : List FileEntry
  fileListEntries : List FileEntry
  sameLocation : Bool
  outputText : String
  outputExt : String

/-- Joining of `output_folder / rel_path.parent`. -/
def joinDir (root rel : String) : String :=
  if rel = "" then root else root ++ "/" ++ rel

/-- Embedding of `MainWindow._collect_tasks`.  Directory mode demands a
non-empty, existing folder and a non-empty match set; file mode demands a
non-empty explicit list.  The output path follows the "same location"
policy, otherwise it is rooted at `Path(self.output_entry.text())` —
whose emptiness check `if not output_folder:` compares the truthiness of
a `Path` object and therefore never fires (see `pathTruthy`). -/
def collectTasks (inp : CollectInput) : Except String (List OutPath) :=
  if inp.isFolderMode then
    if inp.folderText = "" then .error "폴더를 선택하세요."
    else if inp.folderExists = false then .error "폴더가 존재하지 않습니다."
    else if inp.scanResults = [] then .error "변환할 파일이 없습니다."
    else
      inp.scanResults.mapM (fun f =>
        if inp.sameLocation then
          .ok (⟨f.parent, f.stem, inp.outputExt⟩ : OutPath)
        else if pathTruthy inp.outputText = false then
          .error "출력 폴더를 선택하세요."
        else
          .ok (⟨joinDir inp.outputText f.relParent, f.stem, inp.outputExt⟩ : OutPath))
  else
    if inp.fileListEntries = [] then .error "파일을 추가하세요."
    else
      inp.fileListEntries.mapM (fun f =>
        if inp.sameLocation then
          .ok (⟨f.parent, f.stem, inp.outputExt⟩ : OutPath)
        else if pathTruthy inp.outputText = false then
          .error "출력 폴더를 선택하세요."
        else
          .ok (⟨inp.outputText, f.stem, inp.outputExt⟩ : OutPath))

/-- Task status values of `ConversionTask.status`
(대기 / 진행중 / 성공 / 실패). -/
inductive Status
  | pending
  | running
  | succeeded
  | failed
deriving DecidableEq, Repr

/-- Forward rank along the chain Pending → Running → terminal;
both terminal statuses share the top rank. -/
def Status.rank : Status → Nat
  | .pending => 0
  | .running => 1
  | .succeeded => 2
  | .failed => 2

/-- Events (Qt signals) emitted by `ConversionWorker.run`, in order. -/
inductive Event
  | statusMsg (s : String)
  | progress (cur total : Nat) (name : String)
  | taskCompleted (succ total : Nat) (failedIdx : List Nat)
  | errorOccurred (msg : String)
deriving DecidableEq, Repr

/-- Whether an event is the batch-completion signal `task_completed`. -/
def Event.isCompletion : Event → Bool
  | .taskCompleted _ _ _ => true
  | _ => false

/-- The cancellation notice emitted when the flag is observed. -/
def cancelNotice : String := "사용자가 취소했습니다."

/-- Inputs that determine one task's fate inside the worker loop:
its display name, the outcome of `mkdir(parents=True, exist_ok=True)` on
its output directory, whether its input file exists, and the engine's
behavior for its `convert_file` call. -/
structure TaskSpec where
  name : String
  mkdirOutcome : CallOutcome
  inputExists : Bool
  engine : EngineBehavior
deriving Repr

/-- Per-task processing inside the worker loop (after the cancel check
and the initial progress emit): the statuses assigned to the task in
order, the recorded error detail, and whether the task succeeded. -/
def processTask (st : ConverterState) (t : TaskSpec) :
    List Status × Option String × Bool :=
  match t.mkdirOutcome with
  | some e => ([.failed], some ("폴더 생성 실패: " ++ e), false)
  | none =>
    if t.inputExists = false then
      ([.failed], some ("파일을 찾을 수 없음: " ++ t.name), false)
    else
      let r := convertFile st t.engine
      if r.ok then ([.running, .succeeded], none, true)
      else ([.running, .failed], r.err, false)

/-- How the worker's task loop ended: all tasks processed, the
cancellation flag observed, or an unexpected exception escaping the
loop body. -/
inductive LoopExit
  | normal
  | cancelled
  | errored (msg : String)
deriving DecidableEq, Repr

/-- Accumulated observations of the worker's task loop: the status
history of every task (aligned with the task list), the emitted events,
the success count, the indices of failed tasks, and how the loop ended. -/
structure LoopOut where
  histories : List (List Status)
  events : List Event
  succ : Nat
  failedIdx : List Nat
  exit : LoopExit
deriving Repr

/-- Whether the injected unexpected exception fires before iteration
`idx`. -/
def unexpectedAt (u : Option (Nat × String)) (idx : Nat) : Bool :=
  match u with
  | some (j, _) => idx == j
  | none => false

/-- Message of the injected unexpected exception. -/
def unexpectedMsg (u : Option (Nat × String)) : String :=
  match u with
  | some (_, m) => m
  | none => ""

/-- The `for idx, task in enumerate(self.tasks)` loop of
`ConversionWorker.run`.  `cancel i` is the value the cooperative (sticky)
cancellation flag is observed to have at checkpoint `i`; `unexpected`
optionally injects an engine-level exception escaping the loop body at a
given iteration.  A task the loop never reaches keeps history
`[pending]`. -/
def runLoop (st : ConverterState) (cancel : Nat → Bool)
    (unexpected : Option (Nat × String)) (total : Nat) :
    Nat → List TaskSpec → LoopOut
  | _, [] => ⟨[], [], 0, [], .normal⟩
  | idx, t :: rest =>
    if unexpectedAt unexpected idx then
      ⟨(t :: rest).map (fun _ => [Status.pending]), [], 0, [],
        .errored (unexpectedMsg unexpected)⟩
    else if cancel idx then
      ⟨(t :: rest).map (fun _ => [Status.pending]),
        [.statusMsg cancelNotice], 0, [], .cancelled⟩
    else
      let pr := processTask st t
      let out := runLoop st cancel unexpected total (idx + 1) rest
      ⟨(Status.pending :: pr.1) :: out.histories,
        Event.progress idx total t.name :: out.events,
        (if pr.2.2 then 1 else 0) + out.succ,
        (if pr.2.2 then ([] : List Nat) else [idx]) ++ out.failedIdx,
        out.exit⟩

/-- Everything `ConversionWorker.run` leaves behind: per-task status
histories, the emitted events, the aggregate counts, the log entries
produced by the guaranteed cleanup step (`some` exactly when cleanup
ran), and the converter state after cleanup. -/
structure WorkerResult where
  histories : List (List Status)
  events : List Event
  succ : Nat
  failedIdx : List Nat
  cleanupLogs : Option (List String)
  finalState : ConverterState
deriving Repr

/-- Embedding of `ConversionWorker.run` end to end.  A failing
`initialize` lands in the `except` branch (an `error_occurred` emit,
no task ever touched); otherwise the task loop runs; afterwards the
final progress emit and — only when the flag was never observed — the
single `task_completed` emit happen, while an escaped exception skips
both and emits `error_occurred`.  The `finally` branch invokes
`converter.cleanup()` on every one of these paths. -/
def workerRun (env : String → ProgidBehavior) (tasks : List TaskSpec)
    (cancel : Nat → Bool) (unexpected : Option (Nat × String))
    (cb : CleanupBehavior) : WorkerResult :=
  let total := tasks.length
  match initGo env HWP_PROGIDS [] with
  | .error e =>
    let c := cleanupRun ConverterState.fresh cb
    ⟨tasks.map (fun _ => [Status.pending]),
      [.statusMsg "한글 프로그램 연결 중...", .errorOccurred e],
      0, [], some c.2, c.1⟩
  | .ok progid =>
    let st : ConverterState := ⟨true, some progid, true⟩
    let out := runLoop st cancel unexpected total 0 tasks
    let tailEvents : List Event :=
      match out.exit with
      | .errored m => [.errorOccurred m]
      | .cancelled => [.progress total total "완료"]
      | .normal =>
        Event.progress total total "완료" ::
          (if cancel total then [] else [.taskCompleted out.succ total out.failedIdx])
    let c := cleanupRun st cb
    ⟨out.histories,
      [.statusMsg "한글 프로그램 연결 중...",
        .statusMsg ("연결 성공: " ++ progid)] ++ out.events ++ tailEvents,
      out.succ, out.failedIdx, some c.2, c.1⟩

/-- A Boolean check that a status history only ever moves forward:
consecutive statuses have strictly increasing rank.  Because the two
terminal statuses carry the maximal rank, a strictly increasing history
can never continue past a terminal status. -/
def statusChainOk : List Status → Bool
  | [] => true
  | [_] => true
  | a :: b :: rest => decide (a.rank < b.rank) && statusChainOk (b :: rest)

/-- A well-formed history: it starts at Pending and only moves forward. -/
def monotoneHistory (hist : List Status) : Bool :=
  decide (hist.head? = some Status.pending) && statusChainOk hist

/-- Concrete drop environment for the spec's drop-filtering example:
`folder/` is a directory whose recursive scan finds `folder/x.hwpx`. -/
def dropEnvEx : DropEnv :=
  ⟨fun f => f == "folder/",
    fun f ext => if f == "folder/" && ext == ".hwpx" then ["folder/x.hwpx"] else []⟩

/-- Identity environment where the first ProgID fails to dispatch and
the later ones connect cleanly. -/
def envSecondOk : String → ProgidBehavior :=
  fun p => if p = "HWPControl.HwpCtrl.1" then ⟨some "no COM", none⟩ else ⟨none, none⟩

/-- Identity environment where every ProgID fails to dispatch. -/
def envAllFail : String → ProgidBehavior :=
  fun _ => ⟨some "boom", none⟩

/-- Identity environment where every ProgID connects cleanly. -/
def envOk : String → ProgidBehavior := fun _ => ⟨none, none⟩

/-- A task whose conversion succeeds. -/
def taskOk : TaskSpec := ⟨"a.hwp", none, true, ⟨none, none, none, none⟩⟩

/-- A task whose two save attempts both fail. -/
def taskBad : TaskSpec := ⟨"b.hwp", none, true, ⟨none, some "x", some "y", none⟩⟩

/-- Cleanup behavior where every step returns normally. -/
def cbNoop : CleanupBehavior := ⟨none, none, none⟩

/-- Cleanup behavior where every step raises. -/
def cbAllFail : CleanupBehavior := ⟨some "c", some "q", some "u"⟩

-- ===========================================================================
-- Theorems
-- ===========================================================================

/-- Claim C1 (code bug): the collision-adjustment pass does NOT make the
output paths of one batch pairwise distinct.  `_adjust_output_paths`
consults only the paths existing on disk, never the paths already claimed
by earlier tasks of the same batch.  With `out/a.pdf` on disk and two
tasks both targeting `out/a.pdf`, both are renamed to the same
`out/a (1).pdf`; with a clean disk the two equal paths are not adjusted
at all.  Either way the batch ends with a duplicated output path. -/
theorem adjust_output_paths_collision :
    adjustOutputPaths [⟨"out", "a", ".pdf"⟩]
        [⟨"out", "a", ".pdf"⟩, ⟨"out", "a", ".pdf"⟩] =
      [⟨"out", "a (1)", ".pdf"⟩, ⟨"out", "a (1)", ".pdf"⟩] ∧
    adjustOutputPaths []
        [⟨"out", "a", ".pdf"⟩, ⟨"out", "a", ".pdf"⟩] =
      [⟨"out", "a", ".pdf"⟩, ⟨"out", "a", ".pdf"⟩] ∧
    ¬ (adjustOutputPaths [⟨"out", "a", ".pdf"⟩]
        [⟨"out", "a", ".pdf"⟩, ⟨"out", "a", ".pdf"⟩]).Nodup := by
  refine ⟨rfl, rfl, ?_⟩
  decide

/-- Claim C2 (counterexample to the claim as stated): with the
2-parameter save failing, the 3-parameter save succeeding, and the
subsequent unprotected document close raising, `convert_file` returns
failure — not the success the claim asserts for every
2-fails/3-succeeds run. -/
theorem save_fallback_claim_counterexample :
    (convertFile ⟨true, none, true⟩ ⟨none, some "E2", none, some "CLOSE"⟩).ok = false ∧
    (convertFile ⟨true, none, true⟩ ⟨none, some "E2", none, some "CLOSE"⟩).err =
      some "CLOSE" :=
  ⟨rfl, rfl⟩

/-- Claim C2 (amended): in `convert_file` the save is attempted first
with the 2-parameter signature and, only if that raises, with the
3-parameter signature, stopping at the first success; if the 2-parameter
save fails, the 3-parameter save succeeds, AND the subsequent document
close does not raise, the conversion returns success; if both save
variants fail, it returns failure with the diagnostic combining both
variants' messages. -/
theorem save_fallback_amended (st : ConverterState) (e : EngineBehavior)
    (m1 m2 : String) (hInit : st.isInitialized = true)
    (hOpen : e.openCall = none) :
    (e.saveAs2 = none → EngineOp.save3 ∉ (convertFile st e).ops) ∧
    (e.saveAs2 = some m1 → e.saveAs3 = none → e.clearCall = none →
      (convertFile st e).ok = true ∧ (convertFile st e).err = none) ∧
    (e.saveAs2 = some m1 → e.saveAs3 = some m2 →
      (convertFile st e).ok = false ∧
      (convertFile st e).err = some ("2-param: " ++ m1 ++ ", 3-param: " ++ m2)) := by
  refine ⟨?_, ?_, ?_⟩
  · intro h2
    cases hc : e.clearCall <;>
      simp [convertFile, hInit, hOpen, h2, hc]
  · intro h2 h3 hc
    simp [convertFile, hInit, hOpen, h2, h3, hc]
  · intro h2 h3
    cases hc : e.clearCall <;>
      simp [convertFile, hInit, hOpen, h2, h3, hc]

/-- Witness for the amended claim C2: one run where the fallback save
rescues the task and one where both variants fail with the combined
diagnostic. -/
theorem save_fallback_amended_witness :
    ((convertFile ⟨true, none, true⟩ ⟨none, some "E2", none, none⟩).ok = true ∧
      (convertFile ⟨true, none, true⟩ ⟨none, some "E2", none, none⟩).err = none) ∧
    ((convertFile ⟨true, none, true⟩ ⟨none, some "E2", some "E3", none⟩).ok = false ∧
      (convertFile ⟨true, none, true⟩ ⟨none, some "E2", some "E3", none⟩).err =
        some ("2-param: " ++ "E2" ++ ", 3-param: " ++ "E3")) :=
  ⟨(save_fallback_amended ⟨true, none, true⟩ ⟨none, some "E2", none, none⟩
      "E2" "E3" rfl rfl).2.1 rfl rfl rfl,
    (save_fallback_amended ⟨true, none, true⟩ ⟨none, some "E2", some "E3", none⟩
      "E2" "E3" rfl rfl).2.2 rfl rfl⟩

/-- Claim C6 (code bug): the document close after a fully successful
open-and-save is NOT best-effort.  The call `self.hwp.Clear(option=1)`
on the success path is unprotected, so when it raises, the outer handler
turns the already-successful conversion into a failure carrying the
close's message (the code even attempts a second, swallowed close in
that handler). -/
theorem convert_close_failure_flips_success :
    convertFile ⟨true, none, true⟩ ⟨none, none, none, some "CLOSE"⟩ =
      ⟨false, some "CLOSE",
        [.openDoc, .save2, .clearDoc, .clearDoc], ⟨true, none, true⟩⟩ :=
  rfl

/-- Claim C7 (code bug): the drop pipeline filters correctly — the
example payload yields exactly the two expected files — but it does NOT
deduplicate within one payload: `nativeEventFilter` performs no
deduplication and `_add_files` filters only against the set of
previously added files, so a path occurring twice in the raw payload is
appended to the pending file list twice. -/
theorem drop_payload_duplicates_kept :
    validFilesOf dropEnvEx ["report.hwp", "readme.txt", "folder/"] =
      ["report.hwp", "folder/x.hwpx"] ∧
    (addFiles [] [] (validFilesOf dropEnvEx ["report.hwp", "report.hwp"])).1 =
      ["report.hwp", "report.hwp"] ∧
    ¬ ((addFiles [] [] (validFilesOf dropEnvEx ["report.hwp", "report.hwp"])).1).Nodup := by
  refine ⟨rfl, rfl, ?_⟩
  decide

/-- Claim C8 (code bug): of the three validation cases, the first two
raise as claimed — directory mode with an empty match set and file mode
with an empty path collection — but the third never fires: the guard
`if not output_folder:` tests the truthiness of a `pathlib.Path` object,
which is always `True`, so with "same location" off and no output
location chosen, planning silently succeeds with outputs rooted at the
empty path instead of raising a ValidationError. -/
theorem collect_tasks_validation :
    collectTasks ⟨true, "root", true, [], [], false, "out", ".pdf"⟩ =
      .error "변환할 파일이 없습니다." ∧
    collectTasks ⟨false, "", true, [], [], false, "out", ".pdf"⟩ =
      .error "파일을 추가하세요." ∧
    collectTasks ⟨false, "", true, [], [⟨"in", "a", ""⟩], false, "", ".pdf"⟩ =
      .ok [⟨"", "a", ".pdf"⟩] :=
  ⟨rfl, rfl, rfl⟩

/-- Claim C10: calling `convert_file` on a converter that is not
initialized returns `(False, diagnostic)` without raising, performs no
engine operation (empty operation trace), and leaves the converter state
unchanged. -/
theorem convert_file_uninitialized (st : ConverterState) (e : EngineBehavior)
    (h : st.isInitialized = false) :
    convertFile st e =
      ⟨false, some "한글 객체가 초기화되지 않았습니다", [], st⟩ := by
  unfold convertFile
  simp [h]

/-- Witness for claim C10 at a freshly constructed converter. -/
theorem convert_file_uninitialized_witness :
    convertFile ConverterState.fresh ⟨none, none, none, none⟩ =
      ⟨false, some "한글 객체가 초기화되지 않았습니다", [], ConverterState.fresh⟩ :=
  convert_file_uninitialized ConverterState.fresh ⟨none, none, none, none⟩ rfl

/-- Helper: the initialize loop returns the first identity whose attempt
succeeds, whatever diagnostics have accumulated so far. -/
theorem initGo_first_success (env : String → ProgidBehavior) :
    ∀ (pre : List String) (p : String) (post errs : List String),
      (∀ q ∈ pre, ¬ attemptOk env q) → attemptOk env p →
      initGo env (pre ++ p :: post) errs = .ok p := by
  intro pre
  induction pre with
  | nil =>
    intro p post errs _ hp
    obtain ⟨h1, h2⟩ := hp
    simp [initGo, h1, h2]
  | cons q pre ih =>
    intro p post errs hq hp
    have hqfail := hq q (List.mem_cons_self q pre)
    have htail : ∀ r ∈ pre, ¬ attemptOk env r :=
      fun r hr => hq r (List.mem_cons_of_mem q hr)
    cases hd : (env q).dispatch with
    | some e =>
      simp only [List.cons_append, initGo, hd]
      exact ih p post _ htail hp
    | none =>
      cases hm : (env q).setMsgBoxMode with
      | some e =>
        simp only [List.cons_append, initGo, hd, hm]
        exact ih p post _ htail hp
      | none => exact absurd ⟨hd, hm⟩ hqfail

/-- Helper: when every identity's attempt fails, the initialize loop
raises the header followed by every identity's diagnostic in order. -/
theorem initGo_all_fail (env : String → ProgidBehavior) :
    ∀ (l errs : List String),
      (∀ q ∈ l, (attemptErr env q).isSome = true) →
      initGo env l errs =
        .error (initFailHeader ++ String.intercalate "\n"
          (errs.reverse ++ l.map (fun q => q ++ ": " ++ attemptMsg env q))) := by
  intro l
  induction l with
  | nil => intro errs _; simp [initGo]
  | cons p rest ih =>
    intro errs hf
    have hp := hf p (List.mem_cons_self p rest)
    have htail : ∀ q ∈ rest, (attemptErr env q).isSome = true :=
      fun q hq => hf q (List.mem_cons_of_mem p hq)
    cases hd : (env p).dispatch with
    | some e =>
      have hmsg : attemptMsg env p = e := by simp [attemptMsg, attemptErr, hd]
      simp only [initGo, hd]
      rw [ih ((p ++ ": " ++ e) :: errs) htail]
      simp [hmsg, List.append_assoc]
    | none =>
      cases hm : (env p).setMsgBoxMode with
      | some e =>
        have hmsg : attemptMsg env p = e := by simp [attemptMsg, attemptErr, hd, hm]
        simp only [initGo, hd, hm]
        rw [ih ((p ++ ": " ++ e) :: errs) htail]
        simp [hmsg, List.append_assoc]
      | none =>
        exfalso
        have : attemptErr env p = none := by simp [attemptErr, hd, hm]
        rw [this] at hp
        exact Bool.false_ne_true hp

/-- Claim C3: `initialize` tries the fixed, ordered ProgID list and
returns success on the first identity whose attempt succeeds, recording
it in `progid_used`; when every identity fails, the raised message
carries each attempted identity's diagnostic in order, and the batch
never starts — no task leaves Pending, no success is counted, and no
completion event is emitted. -/
theorem connect_fallback (env : String → ProgidBehavior) (pre : List String)
    (p : String) (post : List String) (tasks : List TaskSpec)
    (cancel : Nat → Bool) (unexpected : Option (Nat × String))
    (cb : CleanupBehavior)
    (hsplit : HWP_PROGIDS = pre ++ p :: post)
    (hpre : ∀ q ∈ pre, ¬ attemptOk env q) :
    (attemptOk env p →
      initializeHwp ConverterState.fresh env = .ok ⟨true, some p, true⟩) ∧
    ((∀ q ∈ HWP_PROGIDS, (attemptErr env q).isSome = true) →
      initializeHwp ConverterState.fresh env =
        .error (initFailHeader ++ String.intercalate "\n"
          (HWP_PROGIDS.map (fun q => q ++ ": " ++ attemptMsg env q))) ∧
      (workerRun env tasks cancel unexpected cb).histories =
        tasks.map (fun _ => [Status.pending]) ∧
      (workerRun env tasks cancel unexpected cb).succ = 0 ∧
      ((workerRun env tasks cancel unexpected cb).events.all
        (fun ev => !ev.isCompletion)) = true) := by
  constructor
  · intro hp
    unfold initializeHwp
    rw [hsplit]
    simp [ConverterState.fresh,
      initGo_first_success env pre p post [] hpre hp]
  · intro hall
    have herr := initGo_all_fail env HWP_PROGIDS [] hall
    simp only [List.reverse_nil, List.nil_append] at herr
    refine ⟨?_, ?_, ?_, ?_⟩
    · unfold initializeHwp
      simp [ConverterState.fresh, herr]
    · simp [workerRun, herr]
    · simp [workerRun, herr]
    · simp [workerRun, herr, Event.isCompletion]

/-- Witness for claim C3: with the leading identity failing, the second
identity is the one recorded; with every identity failing, the raised
message lists all three diagnostics. -/
theorem connect_fallback_witness :
    initializeHwp ConverterState.fresh envSecondOk =
      .ok ⟨true, some "HwpObject.HwpObject", true⟩ ∧
    initializeHwp ConverterState.fresh envAllFail =
      .error (initFailHeader ++ String.intercalate "\n"
        (HWP_PROGIDS.map (fun q => q ++ ": " ++ attemptMsg envAllFail q))) :=
  ⟨(connect_fallback envSecondOk ["HWPControl.HwpCtrl.1"] "HwpObject.HwpObject"
      ["HWPFrame.HwpObject"] [] (fun _ => false) none cbNoop rfl
      (by decide)).1 (by decide),
    ((connect_fallback envAllFail [] "HWPControl.HwpCtrl.1"
      ["HwpObject.HwpObject", "HWPFrame.HwpObject"] [] (fun _ => false) none
      cbNoop rfl (by decide)).2 (by decide)).1⟩

/-- Helper: with the flag never observed and no escaping exception, the
worker loop processes every remaining task and exits normally, and its
success count plus failure count equals the number of tasks. -/
theorem runLoop_complete (st : ConverterState) (cancel : Nat → Bool)
    (total : Nat) (hc : ∀ i, cancel i = false) :
    ∀ (ts : List TaskSpec) (idx : Nat),
      (runLoop st cancel none total idx ts).succ +
        (runLoop st cancel none total idx ts).failedIdx.length = ts.length ∧
      (runLoop st cancel none total idx ts).exit = .normal := by
  intro ts
  induction ts with
  | nil => intro idx; exact ⟨rfl, rfl⟩
  | cons t rest ih =>
    intro idx
    obtain ⟨ihc, ihe⟩ := ih (idx + 1)
    have h1 : unexpectedAt none idx = false := rfl
    constructor
    · by_cases hok : (processTask st t).2.2 <;>
        simp [runLoop, h1, hc idx, hok] <;> omega
    · simp [runLoop, h1, hc idx, ihe]

/-- Helper: when the sticky cancellation flag is first observed at
checkpoint `k` inside the loop's range, the loop stops there with the
cancellation notice emitted, and its success count plus failure count
equals the number of tasks processed before the flag was observed. -/
theorem runLoop_cancelled (st : ConverterState) (cancel : Nat → Bool)
    (total k : Nat) (hlow : ∀ i, i < k → cancel i = false)
    (hhigh : ∀ i, k ≤ i → cancel i = true) :
    ∀ (ts : List TaskSpec) (idx : Nat), idx ≤ k → k < idx + ts.length →
      (runLoop st cancel none total idx ts).succ +
        (runLoop st cancel none total idx ts).failedIdx.length = k - idx ∧
      (runLoop st cancel none total idx ts).exit = .cancelled ∧
      Event.statusMsg cancelNotice ∈ (runLoop st cancel none total idx ts).events := by
  intro ts
  induction ts with
  | nil =>
    intro idx hle hlt
    simp only [List.length_nil, Nat.add_zero] at hlt
    omega
  | cons t rest ih =>
    intro idx hle hlt
    have h1 : unexpectedAt none idx = false := rfl
    rcases Nat.lt_or_ge idx k with hlt2 | hge
    · have hc : cancel idx = false := hlow idx hlt2
      obtain ⟨ihc, ihe, ihm⟩ := ih (idx + 1) (by omega)
        (by simp only [List.length_cons] at hlt; omega)
      refine ⟨?_, ?_, ?_⟩
      · by_cases hok : (processTask st t).2.2 <;>
          simp [runLoop, h1, hc, hok] <;> omega
      · simp [runLoop, h1, hc, ihe]
      · simp only [runLoop, h1, Bool.false_eq_true, if_false, hc]
        exact List.mem_cons_of_mem _ ihm
    · have hc : cancel idx = true := hhigh idx hge
      have hk : k - idx = 0 := by omega
      refine ⟨?_, ?_, ?_⟩ <;> simp [runLoop, h1, hc, hk]

/-- Helper: the task loop itself never emits the completion event. -/
theorem runLoop_no_completion (st : ConverterState) (cancel : Nat → Bool)
    (u : Option (Nat × String)) (total : Nat) :
    ∀ (ts : List TaskSpec) (idx : Nat),
      ((runLoop st cancel u total idx ts).events.all
        (fun e => !e.isCompletion)) = true := by
  intro ts
  induction ts with
  | nil => intro idx; rfl
  | cons t rest ih =>
    intro idx
    by_cases hu : unexpectedAt u idx
    · simp [runLoop, hu]
    · by_cases hc : cancel idx
      · simp [runLoop, hu, hc, Event.isCompletion]
      · simp only [runLoop, hu, hc, Bool.false_eq_true, if_false, List.all_cons,
          Bool.and_eq_true]
        exact ⟨rfl, ih (idx + 1)⟩

/-- Claim C4: when the task loop runs to completion with the
cancellation flag never observed, the success count plus the failure
count equals the number of planned tasks and the single completion event
carrying exactly these aggregates is emitted; when the sticky flag
becomes observable at checkpoint `k` inside the batch, the counts add up
to the `k` tasks processed before the flag was observed, no completion
event is emitted, and the cancellation notice is. -/
theorem batch_outcome_counts (env : String → ProgidBehavior)
    (tasks : List TaskSpec) (cb : CleanupBehavior) (progid : String)
    (cancel : Nat → Bool) (k : Nat)
    (hInit : initGo env HWP_PROGIDS [] = .ok progid) :
    ((∀ i, cancel i = false) →
      (workerRun env tasks cancel none cb).succ +
        (workerRun env tasks cancel none cb).failedIdx.length = tasks.length ∧
      Event.taskCompleted (workerRun env tasks cancel none cb).succ tasks.length
          (workerRun env tasks cancel none cb).failedIdx ∈
        (workerRun env tasks cancel none cb).events) ∧
    ((∀ i, i < k → cancel i = false) → (∀ i, k ≤ i → cancel i = true) →
      k < tasks.length →
      (workerRun env tasks cancel none cb).succ +
        (workerRun env tasks cancel none cb).failedIdx.length = k ∧
      ((workerRun env tasks cancel none cb).events.all
        (fun e => !e.isCompletion)) = true ∧
      Event.statusMsg cancelNotice ∈ (workerRun env tasks cancel none cb).events) := by
  constructor
  · intro hc
    obtain ⟨hcnt, hexit⟩ :=
      runLoop_complete ⟨true, some progid, true⟩ cancel tasks.length hc tasks 0
    constructor
    · simpa [workerRun, hInit] using hcnt
    · simp [workerRun, hInit, hexit, hc tasks.length]
  · intro hlow hhigh hk
    obtain ⟨hcnt, hexit, hmem⟩ :=
      runLoop_cancelled ⟨true, some progid, true⟩ cancel tasks.length k hlow hhigh
        tasks 0 (Nat.zero_le k) (by omega)
    refine ⟨?_, ?_, ?_⟩
    · simpa [workerRun, hInit] using hcnt
    · have hall :=
        runLoop_no_completion ⟨true, some progid, true⟩ cancel none tasks.length tasks 0
      rw [List.all_eq_true] at hall
      simp [workerRun, hInit, hexit, Event.isCompletion, List.all_eq_true]
      intro x hx
      simpa [Event.isCompletion] using hall x hx
    · simp [workerRun, hInit, hexit, hmem]

/-- Witness for claim C4: a two-task batch (one success, one failure)
run to completion, and the same batch cancelled before its second task. -/
theorem batch_outcome_counts_witness :
    ((workerRun envOk [taskOk, taskBad] (fun _ => false) none cbNoop).succ +
        (workerRun envOk [taskOk, taskBad] (fun _ => false) none cbNoop).failedIdx.length = 2 ∧
      Event.taskCompleted (workerRun envOk [taskOk, taskBad] (fun _ => false) none cbNoop).succ 2
          (workerRun envOk [taskOk, taskBad] (fun _ => false) none cbNoop).failedIdx ∈
        (workerRun envOk [taskOk, taskBad] (fun _ => false) none cbNoop).events) ∧
    ((workerRun envOk [taskOk, taskBad] (fun i => decide (1 ≤ i)) none cbNoop).succ +
        (workerRun envOk [taskOk, taskBad] (fun i => decide (1 ≤ i)) none cbNoop).failedIdx.length = 1 ∧
      ((workerRun envOk [taskOk, taskBad] (fun i => decide (1 ≤ i)) none cbNoop).events.all
        (fun e => !e.isCompletion)) = true ∧
      Event.statusMsg cancelNotice ∈
        (workerRun envOk [taskOk, taskBad] (fun i => decide (1 ≤ i)) none cbNoop).events) :=
  ⟨(batch_outcome_counts envOk [taskOk, taskBad] cbNoop "HWPControl.HwpCtrl.1"
      (fun _ => false) 0 rfl).1 (fun _ => rfl),
    (batch_outcome_counts envOk [taskOk, taskBad] cbNoop "HWPControl.HwpCtrl.1"
      (fun i => decide (1 ≤ i)) 1 rfl).2
      (fun i hi => by
        have h0 : i = 0 := by omega
        subst h0; rfl)
      (fun i hi => decide_eq_true hi)
      (by decide)⟩

/-- Claim C5: the guaranteed-cleanup step runs on every termination path
of the worker — connection failure, normal completion, cooperative
cancellation, or an escaped engine-level exception — and leaves the
converter deinitialized; moreover `cleanup` itself is total and
best-effort: when all three steps (force-close, quit, runtime release)
raise, each failure is merely logged while the handle fields are still
reset and the later steps still run. -/
theorem cleanup_guaranteed (env : String → ProgidBehavior)
    (tasks : List TaskSpec) (cancel : Nat → Bool)
    (unexpected : Option (Nat × String)) (cb : CleanupBehavior)
    (st : ConverterState) (b : CleanupBehavior)
    (h1 : st.hwpLive = true) (h2 : st.isInitialized = true) :
    (workerRun env tasks cancel unexpected cb).cleanupLogs.isSome = true ∧
    (workerRun env tasks cancel unexpected cb).finalState.isInitialized = false ∧
    cleanupRun st b =
      (⟨false, st.progidUsed, false⟩,
        logOf b.clearAll ++ logOf b.quitCall ++ logOf b.coUninit) := by
  refine ⟨?_, ?_, ?_⟩
  · cases hI : initGo env HWP_PROGIDS [] <;> simp [workerRun, hI]
  · cases hI : initGo env HWP_PROGIDS [] <;>
      simp [workerRun, hI, cleanupRun, ConverterState.fresh]
  · simp [cleanupRun, h1, h2]

/-- Witness for claim C5: a failing-connection batch still runs cleanup
and ends deinitialized, and a cleanup whose three steps all raise logs
all three messages while resetting the handle. -/
theorem cleanup_guaranteed_witness :
    (workerRun envAllFail [taskOk] (fun _ => false) none cbAllFail).cleanupLogs.isSome = true ∧
    (workerRun envAllFail [taskOk] (fun _ => false) none cbAllFail).finalState.isInitialized = false ∧
    cleanupRun ⟨true, some "X", true⟩ cbAllFail =
      (⟨false, some "X", false⟩, ["c", "q", "u"]) :=
  cleanup_guaranteed envAllFail [taskOk] (fun _ => false) none cbAllFail
    ⟨true, some "X", true⟩ cbAllFail rfl rfl

/-- Helper: a processed task's status history has one of the three
forward shapes. -/
theorem processTask_shape (st : ConverterState) (t : TaskSpec) :
    Status.pending :: (processTask st t).1 = [Status.pending, Status.failed] ∨
    Status.pending :: (processTask st t).1 =
      [Status.pending, Status.running, Status.succeeded] ∨
    Status.pending :: (processTask st t).1 =
      [Status.pending, Status.running, Status.failed] := by
  unfold processTask
  cases t.mkdirOutcome with
  | some e => simp
  | none =>
    by_cases hex : t.inputExists = false
    · simp [hex]
    · by_cases hok : (convertFile st t.engine).ok <;> simp [hex, hok]

/-- Helper: every status history left behind by the task loop starts at
Pending and only moves forward. -/
theorem runLoop_histories_monotone (st : ConverterState) (cancel : Nat → Bool)
    (u : Option (Nat × String)) (total : Nat) :
    ∀ (ts : List TaskSpec) (idx : Nat),
      ((runLoop st cancel u total idx ts).histories.all monotoneHistory) = true := by
  intro ts
  induction ts with
  | nil => intro idx; rfl
  | cons t rest ih =>
    intro idx
    have hone : monotoneHistory [Status.pending] = true := rfl
    by_cases hu : unexpectedAt u idx
    · simp [runLoop, hu, hone]
    · by_cases hc : cancel idx
      · simp [runLoop, hu, hc, hone]
      · simp only [runLoop, hu, hc, Bool.false_eq_true, if_false, List.all_cons,
          Bool.and_eq_true]
        refine ⟨?_, ih (idx + 1)⟩
        rcases processTask_shape st t with h | h | h <;> rw [h] <;> rfl

/-- Claim C9: in every worker run, every task's status history starts at
Pending and moves strictly forward along the rank order
Pending < Running < terminal; since both terminal statuses carry the
maximal rank, a task that has reached Succeeded or Failed is never
mutated again. -/
theorem task_status_monotone (env : String → ProgidBehavior)
    (tasks : List TaskSpec) (cancel : Nat → Bool)
    (unexpected : Option (Nat × String)) (cb : CleanupBehavior) :
    ((workerRun env tasks cancel unexpected cb).histories.all monotoneHistory) = true := by
  cases hI : initGo env HWP_PROGIDS [] with
  | error e =>
    have hone : monotoneHistory [Status.pending] = true := rfl
    simp [workerRun, hI, hone]
  | ok p =>
    simpa [workerRun, hI] using
      runLoop_histories_monotone ⟨true, some p, true⟩ cancel unexpected
        tasks.length tasks 0

end HwpMate
